import Mathlib

/-!
Verification of the task-tracking dashboard core (Luftborn task manager).

The development shallowly embeds the task data model, the reactive
filtered-view engine of `tasks.component.ts`, the drag-drop transition
handler `onTaskDropped`, the `TaskService` store operations
(`getTasks`, `createTask`, `updateTask`) and the `isTaskOverdue`
utility, and proves the spec's testable properties about them.

JavaScript strings are modelled as Lean `String`; lower-casing and
substring search are modelled explicitly so that the engine and the
spec-side predicates provably use the same operations.
-/

namespace TaskManager

/-! ## Data model (`src/app/types`) -/

/-- `TaskStatus = 'todo' | 'in_progress' | 'done'`. -/
inductive TaskStatus where
  | todo
  | in_progress
  | done
deriving DecidableEq, Repr

/-- `TaskPriority = 'low' | 'medium' | 'high'`. -/
inductive TaskPriority where
  | low
  | medium
  | high
deriving DecidableEq, Repr

/-- `User` record: id, name, avatar, email. -/
structure User where
  id : String
  name : String
  avatar : String
  email : String
deriving DecidableEq, Repr

/-- `Task` record.  `completedAt` and `isOverdue` are optional fields of the
TypeScript interface and are modelled as `Option`; an absent field is `none`. -/
structure Task where
  id : String
  title : String
  description : String
  status : TaskStatus
  priority : TaskPriority
  dueDate : String
  assignee : User
  tags : List String
  createdAt : String
  updatedAt : String
  isOverdue : Option Bool := none
  completedAt : Option String := none
deriving DecidableEq, Repr

/-! ## JavaScript string primitives

`toLowerCase`, truthiness of a string (non-empty), and `String.includes`
(substring containment), as used by the filter code. -/

/-- `s.toLowerCase()` (per-character lower-casing). -/
def jsToLower (s : String) : String := String.mk (s.data.map Char.toLower)

/-- JavaScript truthiness of a string: non-empty. -/
def jsStrTruthy (s : String) : Bool := !s.data.isEmpty

/-- JavaScript truthiness of an optional string: present and non-empty. -/
def jsTruthy : Option String → Bool
  | none => false
  | some s => jsStrTruthy s

/-- Does `needle` occur at the head of `hay`? -/
def headMatch : List Char → List Char → Bool
  | [], _ => true
  | _ :: _, [] => false
  | c :: cs, h :: hs => c == h && headMatch cs hs

/-- Does `needle` occur somewhere in `hay`? -/
def occursIn (needle : List Char) : List Char → Bool
  | [] => needle.isEmpty
  | h :: rest => headMatch needle (h :: rest) || occursIn needle rest

/-- `hay.includes(needle)`. -/
def jsIncludes (hay needle : String) : Bool := occursIn needle.data hay.data

/-! ## Filter state

The status filter is `'all'` or a concrete status, the priority filter is
`'all'` or a concrete priority, the search query is a plain string
(`SearchService.searchQuery`, default `''`). -/

/-- Status filter value: `'all'` or one of the three statuses. -/
inductive StatusFilter where
  | all
  | only (s : TaskStatus)
deriving DecidableEq, Repr

/-- Priority filter value: `'all'` or one of the three priorities. -/
inductive PriorityFilter where
  | all
  | only (p : TaskPriority)
deriving DecidableEq, Repr

/-! ## Filtered view engine (`tasks.component.ts`, `filteredTasks`) -/

/-- The search predicate applied by `filteredTasks` once the query has been
lower-cased: title or description (lower-cased) contains the query. -/
def searchHit (searchLower : String) (task : Task) : Bool :=
  jsIncludes (jsToLower task.title) searchLower ||
    jsIncludes (jsToLower task.description) searchLower

/-- The `filteredTasks` computed signal: apply the status filter, then the
priority filter, then (when the query is non-empty) the search filter. -/
def filteredTasks (allTasks : List Task) (statusFilter : StatusFilter)
    (priorityFilter : PriorityFilter) (searchQuery : String) : List Task :=
  let search := jsToLower searchQuery
  let tasks1 :=
    match statusFilter with
    | StatusFilter.all => allTasks
    | StatusFilter.only s => allTasks.filter (fun task => task.status == s)
  let tasks2 :=
    match priorityFilter with
    | PriorityFilter.all => tasks1
    | PriorityFilter.only p => tasks1.filter (fun task => task.priority == p)
  if jsStrTruthy search then tasks2.filter (searchHit search) else tasks2

/-- The `todoTasks` computed signal, applied to the `filteredTasks` output. -/
def todoTasks (ft : List Task) : List Task :=
  ft.filter (fun task => task.status == TaskStatus.todo)

/-- The `inProgressTasks` computed signal, applied to the `filteredTasks` output. -/
def inProgressTasks (ft : List Task) : List Task :=
  ft.filter (fun task => task.status == TaskStatus.in_progress)

/-- The `doneTasks` computed signal, applied to the `filteredTasks` output. -/
def doneTasks (ft : List Task) : List Task :=
  ft.filter (fun task => task.status == TaskStatus.done)

/-! ## Spec-side filter predicates (for the refinement statement P1)

These three predicates follow the wording of the spec: each filter at its
default value matches everything, otherwise it tests the corresponding
field; search tests case-insensitive substring containment in title or
description. -/

/-- Spec wording: status matches when the filter is `'all'` or equal. -/
def specStatusMatches : StatusFilter → Task → Bool
  | StatusFilter.all, _ => true
  | StatusFilter.only s, task => task.status == s

/-- Spec wording: priority matches when the filter is `'all'` or equal. -/
def specPriorityMatches : PriorityFilter → Task → Bool
  | PriorityFilter.all, _ => true
  | PriorityFilter.only p, task => task.priority == p

/-- Spec wording: empty search matches everything, otherwise the lower-cased
title or description must contain the lower-cased query. -/
def specSearchMatches (searchQuery : String) (task : Task) : Bool :=
  if jsStrTruthy searchQuery then
    jsIncludes (jsToLower task.title) (jsToLower searchQuery) ||
      jsIncludes (jsToLower task.description) (jsToLower searchQuery)
  else true

/-- Spec wording: conjunction of the three filter predicates. -/
def specFilterPred (statusFilter : StatusFilter) (priorityFilter : PriorityFilter)
    (searchQuery : String) (task : Task) : Bool :=
  specStatusMatches statusFilter task && specPriorityMatches priorityFilter task &&
    specSearchMatches searchQuery task

/-- Lower-casing does not change emptiness of a string. -/
theorem jsStrTruthy_jsToLower (s : String) : jsStrTruthy (jsToLower s) = jsStrTruthy s := by
  cases s with
  | mk data => cases data <;> rfl

/-- C1: the filtered view equals the task list filtered by the conjunction of
the three spec predicates; each filter at its default value is a no-op
(its conjunct is identically `true`). -/
theorem filteredTasks_eq_spec_filter (allTasks : List Task) (statusFilter : StatusFilter)
    (priorityFilter : PriorityFilter) (searchQuery : String) :
    filteredTasks allTasks statusFilter priorityFilter searchQuery =
      allTasks.filter (specFilterPred statusFilter priorityFilter searchQuery) := by
  cases statusFilter <;> cases priorityFilter <;>
    by_cases hq : jsStrTruthy searchQuery = true <;>
    simp only [filteredTasks, jsStrTruthy_jsToLower, hq, if_true, if_false,
      Bool.false_eq_true, ite_true, ite_false, List.filter_filter] <;>
    first
      | (apply List.filter_congr; intro task _;
         simp [specFilterPred, specStatusMatches, specPriorityMatches, specSearchMatches,
           searchHit, hq] <;> ac_rfl)
      | (conv_lhs => rw [← List.filter_true allTasks]
         apply List.filter_congr; intro task _;
         simp [specFilterPred, specStatusMatches, specPriorityMatches, specSearchMatches,
           searchHit, hq])

/-! ## Partition of the filtered view into the three buckets (P2) -/

/-- Concatenating the three status buckets permutes the underlying list:
every task has exactly one status, so it lands in exactly one bucket. -/
theorem buckets_perm (l : List Task) :
    (todoTasks l ++ inProgressTasks l ++ doneTasks l).Perm l := by
  induction l with
  | nil => rfl
  | cons t l ih =>
    simp only [todoTasks, inProgressTasks, doneTasks] at ih ⊢
    rw [List.filter_cons, List.filter_cons, List.filter_cons]
    cases ht : t.status
    · rw [show (TaskStatus.todo == TaskStatus.todo) = true from rfl,
        show (TaskStatus.todo == TaskStatus.in_progress) = false from rfl,
        show (TaskStatus.todo == TaskStatus.done) = false from rfl]
      simp only [Bool.false_eq_true, ite_false, ite_true, if_pos trivial]
      exact ih.cons t
    · rw [show (TaskStatus.in_progress == TaskStatus.todo) = false from rfl,
        show (TaskStatus.in_progress == TaskStatus.in_progress) = true from rfl,
        show (TaskStatus.in_progress == TaskStatus.done) = false from rfl]
      simp only [Bool.false_eq_true, ite_false, ite_true, if_pos trivial]
      rw [List.append_assoc]
      exact List.perm_middle.trans ((List.append_assoc _ _ _ ▸ ih).cons t)
    · rw [show (TaskStatus.done == TaskStatus.todo) = false from rfl,
        show (TaskStatus.done == TaskStatus.in_progress) = false from rfl,
        show (TaskStatus.done == TaskStatus.done) = true from rfl]
      simp only [Bool.false_eq_true, ite_false, ite_true, if_pos trivial]
      exact List.perm_middle.trans (ih.cons t)

/-- Tasks in different status buckets cannot coincide. -/
theorem buckets_disjoint (l : List Task) :
    (todoTasks l).Disjoint (inProgressTasks l) ∧ (todoTasks l).Disjoint (doneTasks l) ∧
      (inProgressTasks l).Disjoint (doneTasks l) := by
  refine ⟨?_, ?_, ?_⟩ <;>
    · intro a ha hb
      simp only [todoTasks, inProgressTasks, doneTasks, List.mem_filter, beq_iff_eq] at ha hb
      rw [ha.2] at hb
      exact absurd hb.2 (by simp)

/-- C6: the three output buckets are pairwise disjoint and the multiset of
task ids in their union equals the multiset of ids of the filtered list. -/
theorem buckets_partition_filteredTasks (allTasks : List Task) (statusFilter : StatusFilter)
    (priorityFilter : PriorityFilter) (searchQuery : String) :
    ((((todoTasks (filteredTasks allTasks statusFilter priorityFilter searchQuery) ++
          inProgressTasks (filteredTasks allTasks statusFilter priorityFilter searchQuery) ++
          doneTasks (filteredTasks allTasks statusFilter priorityFilter searchQuery)).map
            Task.id : List String) : Multiset String) =
        (((filteredTasks allTasks statusFilter priorityFilter searchQuery).map
            Task.id : List String) : Multiset String)) ∧
      (todoTasks (filteredTasks allTasks statusFilter priorityFilter searchQuery)).Disjoint
        (inProgressTasks (filteredTasks allTasks statusFilter priorityFilter searchQuery)) ∧
      (todoTasks (filteredTasks allTasks statusFilter priorityFilter searchQuery)).Disjoint
        (doneTasks (filteredTasks allTasks statusFilter priorityFilter searchQuery)) ∧
      (inProgressTasks (filteredTasks allTasks statusFilter priorityFilter searchQuery)).Disjoint
        (doneTasks (filteredTasks allTasks statusFilter priorityFilter searchQuery)) := by
  refine ⟨?_, (buckets_disjoint _).1, (buckets_disjoint _).2.1, (buckets_disjoint _).2.2⟩
  exact Multiset.coe_eq_coe.mpr ((buckets_perm _).map Task.id)

/-! ## TaskService store (`task.service.ts`)

The service holds three signals: `tasks`, `loading`, `error`.  Every
operation sets `loading = true` and `error = null` on entry; the `tap`
success handler mutates `tasks` and clears `loading`; the `tap` error
handler records the message and clears `loading` without touching
`tasks`.  The outcome of the HTTP call is modelled as an `Except`. -/

/-- The three signals of `TaskService`. -/
structure StoreState where
  tasks : List Task
  loading : Bool
  error : Option String
deriving DecidableEq, Repr

/-- Entry of every mutating call: `loadingSignal.set(true); errorSignal.set(null)`. -/
def storeOnEntry (s : StoreState) : StoreState :=
  { s with loading := true, error := none }

/-- `TaskFormData`: the full form payload used by `createTask`. -/
structure TaskFormData where
  title : String
  description : String
  status : TaskStatus
  priority : TaskPriority
  dueDate : String
  assigneeId : String
  tags : List String
deriving DecidableEq, Repr

/-- `Partial<TaskFormData>`: the sparse patch accepted by `updateTask`.
A `none` field is absent from the patch (TypeScript `undefined`). -/
structure TaskPatch where
  title : Option String := none
  description : Option String := none
  status : Option TaskStatus := none
  priority : Option TaskPriority := none
  dueDate : Option String := none
  assigneeId : Option String := none
  tags : Option (List String) := none
deriving DecidableEq, Repr

/-- The first mock user (`users[0]`, John Doe). -/
def user001 : User :=
  { id := "user-001", name := "John Doe", avatar := "JD", email := "john.doe@company.com" }

/-- The hard-coded mock user list of `TaskService.getUserById`. -/
def mockUsers : List User :=
  [user001,
   { id := "user-002", name := "Sarah Smith", avatar := "SS",
     email := "sarah.smith@company.com" },
   { id := "user-003", name := "Mike Johnson", avatar := "MJ",
     email := "mike.johnson@company.com" },
   { id := "user-004", name := "Emily Davis", avatar := "ED",
     email := "emily.davis@company.com" }]

/-- `TaskService.getUserById`: `users.find((u) => u.id === userId) || users[0]`. -/
def getUserById (userId : String) : User :=
  (mockUsers.find? (fun u => u.id == userId)).getD user001

/-- `Partial<Task>`: the body of the PATCH request built by `updateTask`.
Every field the TypeScript `Task` interface allows in a partial record is
present as an `Option`; `none` means the key is absent from the body. -/
structure UpdateData where
  title : Option String := none
  description : Option String := none
  status : Option TaskStatus := none
  priority : Option TaskPriority := none
  dueDate : Option String := none
  tags : Option (List String) := none
  updatedAt : Option String := none
  assignee : Option User := none
  isOverdue : Option (Option Bool) := none
  completedAt : Option (Option String) := none
deriving DecidableEq, Repr

/-- Body construction of `updateTask` (source lines before the PATCH call):
strip `assigneeId`, keep the defined fields, add `updatedAt := now`, and
resolve `assignee` only when `assigneeId` is truthy.  No `completedAt`
key is ever placed in the body. -/
def buildUpdateData (now : String) (patch : TaskPatch) : UpdateData :=
  { title := patch.title
    description := patch.description
    status := patch.status
    priority := patch.priority
    dueDate := patch.dueDate
    tags := patch.tags
    updatedAt := some now
    assignee :=
      if jsTruthy patch.assigneeId then some (getUserById (patch.assigneeId.getD ""))
      else none
    isOverdue := none
    completedAt := none }

/-- Modelled from the spec: the Task Repository `update` operation.  The
backing JSON Server is not part of the repository sources; §4.1 of the spec
fixes its contract — "patch is a sparse set of fields to change; fields
absent from the patch are left untouched server-side" — so the returned
task is the stored task with exactly the present fields replaced. -/
def repositoryPatch (t : Task) (u : UpdateData) : Task :=
  { id := t.id
    title := u.title.getD t.title
    description := u.description.getD t.description
    status := u.status.getD t.status
    priority := u.priority.getD t.priority
    dueDate := u.dueDate.getD t.dueDate
    assignee := u.assignee.getD t.assignee
    tags := u.tags.getD t.tags
    createdAt := t.createdAt
    updatedAt := u.updatedAt.getD t.updatedAt
    isOverdue := u.isOverdue.getD t.isOverdue
    completedAt := u.completedAt.getD t.completedAt }

/-- `updateTask` store effect: entry effects, then on success replace every
task whose id matches with the server-returned task and clear `loading`;
on error record the message and clear `loading`. -/
def updateTaskCall (s : StoreState) (id : String) (result : Except String Task) : StoreState :=
  let s1 := storeOnEntry s
  match result with
  | Except.ok updatedTask =>
      { s1 with
        tasks := s1.tasks.map (fun task => if task.id == id then updatedTask else task)
        loading := false }
  | Except.error msg => { s1 with error := some msg, loading := false }

/-- The `newTask` record built by `createTask`: form data plus a client id
`task-${Date.now()}`, the resolved assignee and both timestamps; no
`completedAt` and no `isOverdue`. -/
def buildNewTask (taskData : TaskFormData) (nowMs : Nat) (nowIso : String) : Task :=
  { id := "task-" ++ toString nowMs
    title := taskData.title
    description := taskData.description
    status := taskData.status
    priority := taskData.priority
    dueDate := taskData.dueDate
    assignee := getUserById taskData.assigneeId
    tags := taskData.tags
    createdAt := nowIso
    updatedAt := nowIso
    isOverdue := none
    completedAt := none }

/-- `createTask` store effect: entry effects, then on success append the
server-returned task and clear `loading`; on error record the message and
clear `loading`. -/
def createTaskCall (s : StoreState) (result : Except String Task) : StoreState :=
  let s1 := storeOnEntry s
  match result with
  | Except.ok task => { s1 with tasks := s1.tasks ++ [task], loading := false }
  | Except.error msg => { s1 with error := some msg, loading := false }

/-- `TaskFilter`: the optional filter argument of `getTasks`. -/
structure TaskFilter where
  status : Option StatusFilter := none
  priority : Option PriorityFilter := none
  assigneeId : Option String := none
  search : Option String := none
deriving DecidableEq, Repr

/-- The `map` stage of `getTasks`: when `filter?.search` is truthy, keep
only the tasks whose lower-cased title or description contains the
lower-cased search string; otherwise pass the response through. -/
def getTasksSearchStage (search : Option String) (tasks : List Task) : List Task :=
  if jsTruthy search then
    let searchLower := jsToLower (search.getD "")
    tasks.filter (fun task =>
      jsIncludes (jsToLower task.title) searchLower ||
        jsIncludes (jsToLower task.description) searchLower)
  else tasks

/-- `getTasks` store effect: entry effects, then on success the
search-filtered server response *replaces* the canonical task list and
`loading` clears; on error the message is recorded and `loading` clears. -/
def getTasksCall (s : StoreState) (filter : TaskFilter) (result : Except String (List Task)) :
    StoreState :=
  let s1 := storeOnEntry s
  match result with
  | Except.ok serverTasks =>
      { s1 with tasks := getTasksSearchStage filter.search serverTasks, loading := false }
  | Except.error msg => { s1 with error := some msg, loading := false }

/-- C4: a failed `updateTask` or `createTask` leaves `tasks` exactly equal
to its pre-call value, records the failure in the error signal, and clears
`loading`. -/
theorem failed_mutation_preserves_tasks (s : StoreState) (id : String) (msg : String) :
    (updateTaskCall s id (Except.error msg)).tasks = s.tasks ∧
      (updateTaskCall s id (Except.error msg)).error = some msg ∧
      (updateTaskCall s id (Except.error msg)).loading = false ∧
      (createTaskCall s (Except.error msg)).tasks = s.tasks ∧
      (createTaskCall s (Except.error msg)).error = some msg ∧
      (createTaskCall s (Except.error msg)).loading = false :=
  ⟨rfl, rfl, rfl, rfl, rfl, rfl⟩

/-- Replacement at the matching position: mapping the replacement function
over a list sends the element at position `i` (whose id matches) to the
returned task. -/
theorem map_replace_at_match (l : List Task) (id : String) (returned : Task) (i : Nat)
    (t0 : Task) (hget : l[i]? = some t0) (hid : t0.id = id) :
    (l.map (fun task => if task.id == id then returned else task))[i]? = some returned := by
  rw [List.getElem?_map, hget]
  simp [hid]

/-- C7: a successful `updateTask` replaces exactly the task at the matching
position with the server-returned record (whatever it is — not a local
merge), keeps the length, and leaves every other position untouched. -/
theorem updateTask_success_replaces_in_place (s : StoreState) (id : String) (returned : Task)
    (i : Nat) (t0 : Task) (hnodup : (s.tasks.map Task.id).Nodup)
    (hget : s.tasks[i]? = some t0) (hid : t0.id = id) :
    (updateTaskCall s id (Except.ok returned)).tasks.length = s.tasks.length ∧
      (updateTaskCall s id (Except.ok returned)).tasks[i]? = some returned ∧
      ∀ j, j ≠ i → (updateTaskCall s id (Except.ok returned)).tasks[j]? = s.tasks[j]? := by
  refine ⟨List.length_map _ _, map_replace_at_match _ _ _ _ _ hget hid, ?_⟩
  intro j hj
  show (s.tasks.map (fun task => if task.id == id then returned else task))[j]? = s.tasks[j]?
  rw [List.getElem?_map]
  cases hgj : s.tasks[j]? with
  | none => rfl
  | some tj =>
    have hne : tj.id ≠ id := by
      intro heq
      apply hj
      have hi : i < (s.tasks.map Task.id).length := by
        rw [List.length_map]
        exact (List.getElem?_eq_some.mp hget).1
      refine (List.getElem?_inj hi hnodup ?_).symm
      rw [List.getElem?_map, List.getElem?_map, hget, hgj]
      simp [hid, heq]
    simp [hne]

/-- Concrete store used by the witnesses below: two tasks `t1`, `t2`. -/
def taskT1 : Task :=
  { id := "t1", title := "Alpha", description := "first", status := TaskStatus.todo,
    priority := TaskPriority.low, dueDate := "2025-01-01", assignee := user001,
    tags := [], createdAt := "c1", updatedAt := "u1" }

/-- Second concrete task of the witness store. -/
def taskT2 : Task :=
  { id := "t2", title := "Beta", description := "second", status := TaskStatus.in_progress,
    priority := TaskPriority.high, dueDate := "2025-02-02", assignee := user001,
    tags := ["x"], createdAt := "c2", updatedAt := "u2" }

/-- Concrete pre-call store state for the witnesses. -/
def storeEx : StoreState := { tasks := [taskT1, taskT2], loading := false, error := none }

/-- Witness for C7 at the concrete store: replacing `t2` in place. -/
theorem updateTask_success_replaces_in_place_witness :
    (updateTaskCall storeEx "t2" (Except.ok taskT1)).tasks.length = storeEx.tasks.length ∧
      (updateTaskCall storeEx "t2" (Except.ok taskT1)).tasks[1]? = some taskT1 ∧
      ∀ j, j ≠ 1 → (updateTaskCall storeEx "t2" (Except.ok taskT1)).tasks[j]? =
        storeEx.tasks[j]? :=
  updateTask_success_replaces_in_place storeEx "t2" taskT1 1 taskT2 (by decide)
    (by rfl) (by rfl)

/-! ## Assignee resolution fallback (C9) -/

/-- C9: any assignee id that is none of the four mock ids resolves to the
first mock user; in `createTask` the built record therefore embeds John
Doe, and in `updateTask` a truthy unknown assignee id puts John Doe in the
PATCH body.  Resolution never fails and never yields an absent user. -/
theorem getUserById_unknown_falls_back (uid : String)
    (h1 : uid ≠ "user-001") (h2 : uid ≠ "user-002") (h3 : uid ≠ "user-003")
    (h4 : uid ≠ "user-004") :
    getUserById uid = user001 ∧
      (∀ (fd : TaskFormData) (nowMs : Nat) (nowIso : String), fd.assigneeId = uid →
        (buildNewTask fd nowMs nowIso).assignee = user001) ∧
      (∀ (p : TaskPatch) (now : String), p.assigneeId = some uid → jsStrTruthy uid = true →
        (buildUpdateData now p).assignee = some user001) := by
  have e1 : (("user-001" : String) == uid) = false :=
    beq_eq_false_iff_ne.mpr (fun h => h1 h.symm)
  have e2 : (("user-002" : String) == uid) = false :=
    beq_eq_false_iff_ne.mpr (fun h => h2 h.symm)
  have e3 : (("user-003" : String) == uid) = false :=
    beq_eq_false_iff_ne.mpr (fun h => h3 h.symm)
  have e4 : (("user-004" : String) == uid) = false :=
    beq_eq_false_iff_ne.mpr (fun h => h4 h.symm)
  have hres : getUserById uid = user001 := by
    simp [getUserById, mockUsers, user001, List.find?, e1, e2, e3, e4]
  refine ⟨hres, ?_, ?_⟩
  · intro fd nowMs nowIso hfd
    simp [buildNewTask, hfd, hres]
  · intro p now hp htruthy
    simp [buildUpdateData, jsTruthy, hp, htruthy, hres]

/-- Witness for C9 at the concrete id `"user-999"`. -/
theorem getUserById_unknown_falls_back_witness :
    getUserById "user-999" = user001 :=
  (getUserById_unknown_falls_back "user-999" (by decide) (by decide) (by decide)
    (by decide)).1

/-! ## Search-filtered refresh becomes canonical (C10) -/

/-- C10: a successful `getTasks` whose filter carries a non-empty search
string stores the search-filtered server response — not the full
response — as the canonical task list. -/
theorem getTasks_search_filters_canonical (s : StoreState) (filter : TaskFilter)
    (serverTasks : List Task) (q : String) (hq : filter.search = some q)
    (hne : jsStrTruthy q = true) :
    (getTasksCall s filter (Except.ok serverTasks)).tasks =
      serverTasks.filter (fun task =>
        jsIncludes (jsToLower task.title) (jsToLower q) ||
          jsIncludes (jsToLower task.description) (jsToLower q)) := by
  show getTasksSearchStage filter.search serverTasks = _
  rw [hq]
  simp [getTasksSearchStage, jsTruthy, hne]

/-- Witness for C10: a two-task response with search `"Alp"` stores only
the matching task. -/
theorem getTasks_search_filters_canonical_witness :
    (getTasksCall storeEx { search := some "Alp" } (Except.ok [taskT1, taskT2])).tasks =
      [taskT1, taskT2].filter (fun task =>
        jsIncludes (jsToLower task.title) (jsToLower "Alp") ||
          jsIncludes (jsToLower task.description) (jsToLower "Alp")) :=
  getTasks_search_filters_canonical storeEx { search := some "Alp" } [taskT1, taskT2]
    "Alp" rfl (by decide)

/-! ## `completedAt` on transition into `done` (C2)

`updateTask` builds the PATCH body from the sparse form patch plus
`updatedAt`; the `TaskFormData` type has no `completedAt` field and the
service never adds one, so under the repository patch contract the stored
record keeps its pre-call `completedAt` even when the status transitions
into `done`. -/

/-- The status-only patch issued by a cross-column drag into `done`. -/
def patchToDone : TaskPatch := { status := some TaskStatus.done }

/-- Counterexample to C2: a successful status-only update of `t1` to
`done` (the cross-column drag patch), with the server following the patch
contract, stores a record whose status is `done` but whose `completedAt`
is still absent. -/
theorem updateTask_done_completedAt_counterexample :
    ((updateTaskCall storeEx "t1"
        (Except.ok (repositoryPatch taskT1
          (buildUpdateData "2025-10-11T12:00:00.000Z" patchToDone)))).tasks[0]?.map
            Task.status = some TaskStatus.done) ∧
      ((updateTaskCall storeEx "t1"
        (Except.ok (repositoryPatch taskT1
          (buildUpdateData "2025-10-11T12:00:00.000Z" patchToDone)))).tasks[0]?.map
            Task.completedAt = some none) := by
  constructor <;> rfl

/-- C2 amended: after a successful `updateTask` whose response obeys the
repository patch contract, the stored record at the matching position has
the patched status (in particular `done` for the drag patch) and a
`completedAt` exactly equal to its pre-call value — the transition into
`done` does not set it. -/
theorem updateTask_leaves_completedAt_untouched (s : StoreState) (id now : String)
    (patch : TaskPatch) (i : Nat) (t0 : Task)
    (hget : s.tasks[i]? = some t0) (hid : t0.id = id) :
    ((updateTaskCall s id
        (Except.ok (repositoryPatch t0 (buildUpdateData now patch)))).tasks[i]? =
      some (repositoryPatch t0 (buildUpdateData now patch))) ∧
      (repositoryPatch t0 (buildUpdateData now patch)).completedAt = t0.completedAt ∧
      (repositoryPatch t0 (buildUpdateData now patch)).status =
        patch.status.getD t0.status :=
  ⟨map_replace_at_match _ _ _ _ _ hget hid, rfl, rfl⟩

/-- Witness for the amended C2 at the concrete store and drag patch. -/
theorem updateTask_leaves_completedAt_untouched_witness :
    ((updateTaskCall storeEx "t1"
        (Except.ok (repositoryPatch taskT1
          (buildUpdateData "2025-10-11T12:00:00.000Z" patchToDone)))).tasks[0]? =
      some (repositoryPatch taskT1 (buildUpdateData "2025-10-11T12:00:00.000Z" patchToDone))) ∧
      (repositoryPatch taskT1 (buildUpdateData "2025-10-11T12:00:00.000Z" patchToDone)).completedAt
        = taskT1.completedAt ∧
      (repositoryPatch taskT1 (buildUpdateData "2025-10-11T12:00:00.000Z" patchToDone)).status =
        patchToDone.status.getD taskT1.status :=
  updateTask_leaves_completedAt_untouched storeEx "t1" "2025-10-11T12:00:00.000Z"
    patchToDone 0 taskT1 rfl rfl

/-! ## Drag-drop transition handler (`tasks.component.ts`, `onTaskDropped`)

The CDK helpers `moveItemInArray` and `transferArrayItem` are external
library functions with documented behaviour: both clamp their indices
(`clamp(v, max) = Math.max(0, Math.min(max, v))`), `moveItemInArray`
moves the element at the source index to the target index, and
`transferArrayItem` splices the element out of the source array and into
the target array.  They are embedded functionally below. -/

/-- Remove the element at an index (no-op when out of range). -/
def listRemoveIdx : List α → Nat → List α
  | [], _ => []
  | _ :: xs, 0 => xs
  | x :: xs, n + 1 => x :: listRemoveIdx xs n

/-- Insert an element at an index (append when past the end, as
`Array.prototype.splice` does). -/
def listInsertIdx : List α → Nat → α → List α
  | xs, 0, a => a :: xs
  | [], _ + 1, a => [a]
  | x :: xs, n + 1, a => x :: listInsertIdx xs n a

/-- The CDK index clamp (value is a `Nat`, so only the upper bound acts). -/
def cdkClamp (value maxVal : Nat) : Nat := min maxVal value

/-- CDK `moveItemInArray`, functionally: clamp both indices and move the
source element to the target index. -/
def moveItemInArray (array : List α) (fromIndex toIndex : Nat) : List α :=
  let fromI := cdkClamp fromIndex (array.length - 1)
  let toI := cdkClamp toIndex (array.length - 1)
  if fromI == toI then array
  else
    match array[fromI]? with
    | none => array
    | some target => listInsertIdx (listRemoveIdx array fromI) toI target

/-- CDK `transferArrayItem`, functionally: clamp, then splice the element
out of the source array and into the target array. -/
def transferArrayItem (currentArray targetArray : List α) (currentIndex targetIndex : Nat) :
    List α × List α :=
  let fromI := cdkClamp currentIndex (currentArray.length - 1)
  let toI := cdkClamp targetIndex targetArray.length
  if currentArray.length == 0 then (currentArray, targetArray)
  else
    match currentArray[fromI]? with
    | none => (currentArray, targetArray)
    | some item => (listRemoveIdx currentArray fromI, listInsertIdx targetArray toI item)

/-- The `CdkDragDrop` event fields used by `onTaskDropped`.
`sameContainer` models `event.previousContainer === event.container`;
when it holds, both `data` references denote the same array. -/
structure DropEvent where
  sameContainer : Bool
  containerId : String
  containerData : List Task
  previousContainerData : List Task
  previousIndex : Nat
  currentIndex : Nat

/-- `getStatusFromContainerId`: `'todo'` and `'in_progress'` map to their
statuses, anything else maps to `done`. -/
def getStatusFromContainerId (id : String) : TaskStatus :=
  if id == "todo" then TaskStatus.todo
  else if id == "in_progress" then TaskStatus.in_progress
  else TaskStatus.done

/-- The status-only patch `{ status: newStatus }` issued by the handler. -/
def statusOnlyPatch (s : TaskStatus) : TaskPatch := { status := some s }

/-- Result of one `onTaskDropped` invocation: the two bucket arrays after
the local mutation and the list of `updateTask` calls issued. -/
structure DropResult where
  previousContainerData : List Task
  containerData : List Task
  updates : List (String × TaskPatch)

/-- `onTaskDropped`: same container → local reorder only; different
containers → transfer between the bucket arrays, then a single
`updateTask(task.id, { status })` for the task now sitting at the drop
index.  (When the drop index is out of range the TypeScript code would
fault on `task.id` before reaching `updateTask`; that path issues no
update.) -/
def onTaskDropped (ev : DropEvent) : DropResult :=
  if ev.sameContainer then
    let moved := moveItemInArray ev.containerData ev.previousIndex ev.currentIndex
    { previousContainerData := moved, containerData := moved, updates := [] }
  else
    let pair := transferArrayItem ev.previousContainerData ev.containerData
      ev.previousIndex ev.currentIndex
    match pair.2[ev.currentIndex]? with
    | some task =>
        { previousContainerData := pair.1, containerData := pair.2,
          updates := [(task.id, statusOnlyPatch (getStatusFromContainerId ev.containerId))] }
    | none =>
        { previousContainerData := pair.1, containerData := pair.2, updates := [] }

/-- Replay the issued updates against the store; `resolve` supplies the
HTTP outcome of each call. -/
def applyDropUpdates (resolve : String → TaskPatch → Except String Task)
    (s : StoreState) (updates : List (String × TaskPatch)) : StoreState :=
  updates.foldl (fun st u => updateTaskCall st u.1 (resolve u.1 u.2)) s

/-- Element freshly inserted at an in-range index is found there. -/
theorem listInsertIdx_getElem_self (l : List α) (i : Nat) (a : α) (h : i ≤ l.length) :
    (listInsertIdx l i a)[i]? = some a := by
  induction l generalizing i with
  | nil =>
    have : i = 0 := Nat.le_zero.mp h
    subst this
    rfl
  | cons x xs ih =>
    cases i with
    | zero => rfl
    | succ n =>
      show (x :: listInsertIdx xs n a)[n + 1]? = some a
      rw [List.getElem?_cons_succ]
      exact ih n (Nat.le_of_succ_le_succ h)

/-- Removing an element and reinserting it at the same index restores the
list. -/
theorem listInsertIdx_listRemoveIdx_self (l : List α) (i : Nat) (x : α)
    (hx : l[i]? = some x) : listInsertIdx (listRemoveIdx l i) i x = l := by
  induction l generalizing i with
  | nil => simp at hx
  | cons y ys ih =>
    cases i with
    | zero =>
      have : y = x := by simpa using hx
      subst this
      simp [listRemoveIdx, listInsertIdx]
    | succ n =>
      show y :: listInsertIdx (listRemoveIdx ys n) n x = y :: ys
      rw [ih n (by simpa using hx)]

/-- `moveItemInArray` on in-range indices is remove-at-source followed by
insert-at-target. -/
theorem moveItemInArray_eq (array : List α) (i j : Nat) (x : α)
    (hi : i < array.length) (hj : j < array.length) (hx : array[i]? = some x) :
    moveItemInArray array i j = listInsertIdx (listRemoveIdx array i) j x := by
  have hclampi : cdkClamp i (array.length - 1) = i :=
    Nat.min_eq_right (Nat.le_sub_one_of_lt hi)
  have hclampj : cdkClamp j (array.length - 1) = j :=
    Nat.min_eq_right (Nat.le_sub_one_of_lt hj)
  unfold moveItemInArray
  rw [hclampi, hclampj]
  by_cases hij : i = j
  · subst hij
    simp [listInsertIdx_listRemoveIdx_self array i x hx]
  · rw [if_neg (by simpa using hij), hx]

/-- C8: a same-bucket drop only removes the dragged task at the source
index and reinserts it at the destination index of that bucket's array;
it issues no update, and replaying its (empty) update list leaves any
store state unchanged. -/
theorem onTaskDropped_same_bucket (ev : DropEvent) (s : StoreState)
    (resolve : String → TaskPatch → Except String Task)
    (hsame : ev.sameContainer = true)
    (hfrom : ev.previousIndex < ev.containerData.length)
    (hto : ev.currentIndex < ev.containerData.length)
    (item : Task) (hitem : ev.containerData[ev.previousIndex]? = some item) :
    (onTaskDropped ev).updates = [] ∧
      (onTaskDropped ev).containerData =
        listInsertIdx (listRemoveIdx ev.containerData ev.previousIndex)
          ev.currentIndex item ∧
      applyDropUpdates resolve s (onTaskDropped ev).updates = s := by
  unfold onTaskDropped
  rw [hsame, if_pos rfl]
  refine ⟨rfl, ?_, rfl⟩
  exact moveItemInArray_eq ev.containerData ev.previousIndex ev.currentIndex item
    hfrom hto hitem

/-- Witness for C8: reordering the two-task todo bucket. -/
theorem onTaskDropped_same_bucket_witness :
    (onTaskDropped
        { sameContainer := true, containerId := "todo",
          containerData := [taskT1, taskT2], previousContainerData := [taskT1, taskT2],
          previousIndex := 0, currentIndex := 1 }).updates = [] ∧
      (onTaskDropped
        { sameContainer := true, containerId := "todo",
          containerData := [taskT1, taskT2], previousContainerData := [taskT1, taskT2],
          previousIndex := 0, currentIndex := 1 }).containerData =
        listInsertIdx (listRemoveIdx [taskT1, taskT2] 0) 1 taskT1 ∧
      applyDropUpdates (fun _ _ => Except.error "down") storeEx
        (onTaskDropped
          { sameContainer := true, containerId := "todo",
            containerData := [taskT1, taskT2], previousContainerData := [taskT1, taskT2],
            previousIndex := 0, currentIndex := 1 }).updates = storeEx :=
  onTaskDropped_same_bucket _ storeEx (fun _ _ => Except.error "down") rfl
    (by decide) (by decide) taskT1 rfl

/-- C3: a cross-bucket drop removes the task at the source index of the
source bucket array, inserts it at the destination index of the
destination bucket array, and issues exactly one update for that task's
id whose patch is `{ status := destination bucket }`; the three board
container ids map to their statuses. -/
theorem onTaskDropped_cross_bucket (ev : DropEvent)
    (hdiff : ev.sameContainer = false)
    (hfrom : ev.previousIndex < ev.previousContainerData.length)
    (hto : ev.currentIndex ≤ ev.containerData.length)
    (item : Task) (hitem : ev.previousContainerData[ev.previousIndex]? = some item) :
    (onTaskDropped ev).previousContainerData =
        listRemoveIdx ev.previousContainerData ev.previousIndex ∧
      (onTaskDropped ev).containerData =
        listInsertIdx ev.containerData ev.currentIndex item ∧
      (onTaskDropped ev).updates =
        [(item.id, statusOnlyPatch (getStatusFromContainerId ev.containerId))] ∧
      getStatusFromContainerId "todo" = TaskStatus.todo ∧
      getStatusFromContainerId "in_progress" = TaskStatus.in_progress ∧
      getStatusFromContainerId "done" = TaskStatus.done := by
  have hclampf : cdkClamp ev.previousIndex (ev.previousContainerData.length - 1) =
      ev.previousIndex := Nat.min_eq_right (Nat.le_sub_one_of_lt hfrom)
  have hlen : (ev.previousContainerData.length == 0) = false :=
    beq_eq_false_iff_ne.mpr (by omega)
  have hpair : transferArrayItem ev.previousContainerData ev.containerData
      ev.previousIndex ev.currentIndex =
      (listRemoveIdx ev.previousContainerData ev.previousIndex,
        listInsertIdx ev.containerData ev.currentIndex item) := by
    unfold transferArrayItem
    rw [hclampf]
    rw [show cdkClamp ev.currentIndex ev.containerData.length = ev.currentIndex from
      Nat.min_eq_right hto]
    rw [hlen]
    simp only [Bool.false_eq_true, ite_false]
    rw [hitem]
  unfold onTaskDropped
  rw [hdiff]
  simp only [Bool.false_eq_true, ite_false, hpair]
  rw [listInsertIdx_getElem_self ev.containerData ev.currentIndex item hto]
  exact ⟨rfl, rfl, rfl, rfl, rfl, rfl⟩

/-- Witness for C3: dragging `t1` from the todo bucket onto the done
bucket at index 0. -/
theorem onTaskDropped_cross_bucket_witness :
    (onTaskDropped
        { sameContainer := false, containerId := "done",
          containerData := [], previousContainerData := [taskT1, taskT2],
          previousIndex := 0, currentIndex := 0 }).previousContainerData =
        listRemoveIdx [taskT1, taskT2] 0 ∧
      (onTaskDropped
        { sameContainer := false, containerId := "done",
          containerData := [], previousContainerData := [taskT1, taskT2],
          previousIndex := 0, currentIndex := 0 }).containerData =
        listInsertIdx [] 0 taskT1 ∧
      (onTaskDropped
        { sameContainer := false, containerId := "done",
          containerData := [], previousContainerData := [taskT1, taskT2],
          previousIndex := 0, currentIndex := 0 }).updates =
        [(taskT1.id, statusOnlyPatch (getStatusFromContainerId "done"))] ∧
      getStatusFromContainerId "todo" = TaskStatus.todo ∧
      getStatusFromContainerId "in_progress" = TaskStatus.in_progress ∧
      getStatusFromContainerId "done" = TaskStatus.done :=
  onTaskDropped_cross_bucket _ rfl (by decide) (by decide) taskT1 rfl

/-! ## Overdue computation (`task.utils.ts`, `isTaskOverdue`)

Date values are modelled by the day number of their local midnight
(days since the civil epoch 1970-01-01), so `setHours(0,0,0,0)` followed
by `<` becomes integer comparison of day numbers.  `new Date(y, mIdx, d)`
is modelled by the ECMAScript `MakeDay` normalization: a two-digit year
maps to `1900 + y`, the month index normalizes into the year by floor
division, and the day offsets from the first of the month. -/

/-- `split('-')` on a character list, leftmost separator first. -/
def splitOnDash : List Char → List String
  | [] => [""]
  | c :: rest =>
    match splitOnDash rest with
    | [] => [""]
    | s :: ss =>
      if c == '-' then "" :: s :: ss
      else String.mk (c :: s.data) :: ss

/-- Value of a digit run (most significant first). -/
def digitsVal (ds : List Char) : Int :=
  ds.foldl (fun acc c => acc * 10 + ((c.toNat : Int) - 48)) 0

/-- `parseInt(s, 10)`: skip leading whitespace, optional sign, then the
longest digit run; `none` models `NaN` (no digit found). -/
def jsParseInt (s : String) : Option Int :=
  let cs := s.data.dropWhile (fun c => c == ' ' || c == '\t' || c == '\n' || c == '\r')
  match cs with
  | '-' :: rest =>
      let ds := rest.takeWhile Char.isDigit
      if ds.isEmpty then none else some (-(digitsVal ds))
  | '+' :: rest =>
      let ds := rest.takeWhile Char.isDigit
      if ds.isEmpty then none else some (digitsVal ds)
  | _ =>
      let ds := cs.takeWhile Char.isDigit
      if ds.isEmpty then none else some (digitsVal ds)

/-- Day number of the civil date `(y, m, d)` relative to 1970-01-01
(the standard civil-from-days correspondence; `m` is 1-based). -/
def daysFromCivil (y m d : Int) : Int :=
  let y2 := if m ≤ 2 then y - 1 else y
  let era := y2 / 400
  let yoe := y2 - era * 400
  let mp := (m + 9) % 12
  let doy := (153 * mp + 2) / 5 + d - 1
  let doe := yoe * 365 + yoe / 4 - yoe / 100 + doy
  era * 146097 + doe - 719468

/-- ECMAScript two-digit-year rule of the `Date(y, m, d)` constructor. -/
def jsFullYear (year : Int) : Int :=
  if 0 ≤ year ∧ year ≤ 99 then year + 1900 else year

/-- Day number of the local midnight of `new Date(year, monthIndex, day)`:
normalize the month index into the year, then offset by `day - 1`. -/
def jsMakeDateDay (year monthIndex day : Int) : Int :=
  daysFromCivil ((jsFullYear year * 12 + monthIndex) / 12)
    ((jsFullYear year * 12 + monthIndex) % 12 + 1) 1 + (day - 1)

/-- Host-date environment of `isTaskOverdue`: the day number of the
current local calendar date (`new Date()` at midnight) and the
`new Date(string)` fallback parser (`none` models an Invalid Date, whose
comparisons are all false). -/
structure DateEnv where
  todayDay : Int
  parseDateFallbackDay : String → Option Int

/-- `isTaskOverdue`: done or completed tasks are never overdue; a
three-part due date is parsed as a local date via `parseInt` and the
`Date(y, m-1, d)` constructor; otherwise the fallback string parser runs.
The task is overdue when the due date's midnight is strictly before
today's midnight. -/
def isTaskOverdue (env : DateEnv) (task : Task) : Bool :=
  if task.status == TaskStatus.done || jsTruthy task.completedAt then false
  else
    let dateParts := splitOnDash task.dueDate.data
    if dateParts.length == 3 then
      match jsParseInt (dateParts.getD 0 ""), jsParseInt (dateParts.getD 1 ""),
          jsParseInt (dateParts.getD 2 "") with
      | some yy, some mm, some dd => decide (jsMakeDateDay yy (mm - 1) dd < env.todayDay)
      | _, _, _ => false
    else
      match env.parseDateFallbackDay task.dueDate with
      | some dd => decide (dd < env.todayDay)
      | none => false

/-- `daysFromCivil` is the day-1 value shifted by the day offset. -/
theorem daysFromCivil_day_shift (y m d : Int) :
    daysFromCivil y m d = daysFromCivil y m 1 + (d - 1) := by
  unfold daysFromCivil
  by_cases hm : m ≤ 2 <;> simp only [hm, if_pos, if_neg, not_false_iff] <;> ring

/-- For an in-range month and a year out of the two-digit range, the JS
date constructor model agrees with the civil day number. -/
theorem jsMakeDateDay_eq_daysFromCivil (y m d : Int) (hy : 100 ≤ y) (hm1 : 1 ≤ m)
    (hm2 : m ≤ 12) : jsMakeDateDay y (m - 1) d = daysFromCivil y m d := by
  unfold jsMakeDateDay jsFullYear
  rw [if_neg (by omega : ¬(0 ≤ y ∧ y ≤ 99))]
  have hdiv : (y * 12 + (m - 1)) / 12 = y := by omega
  have hmod : (y * 12 + (m - 1)) % 12 = m - 1 := by omega
  rw [hdiv, hmod, show m - 1 + 1 = m by ring, daysFromCivil_day_shift y m d]

/-- C5: a `done` task is never overdue, whatever its due date or
`completedAt`; a task that is not `done`, has no `completedAt`, and whose
due date reads as a calendar date `(y, m, d)` whose day number is
strictly before today's, is always overdue. -/
theorem isTaskOverdue_spec (env : DateEnv) (task : Task) :
    (task.status = TaskStatus.done → isTaskOverdue env task = false) ∧
      (task.status ≠ TaskStatus.done → task.completedAt = none →
        ∀ ys ms ds y m d, splitOnDash task.dueDate.data = [ys, ms, ds] →
          jsParseInt ys = some y → jsParseInt ms = some m → jsParseInt ds = some d →
          100 ≤ y → 1 ≤ m → m ≤ 12 → 1 ≤ d → d ≤ 31 →
          daysFromCivil y m d < env.todayDay →
          isTaskOverdue env task = true) := by
  constructor
  · intro h
    simp [isTaskOverdue, h]
  · intro hst hca ys ms ds y m d hsplit hpy hpm hpd hy hm1 hm2 hd1 hd2 hlt
    have hbeq : (task.status == TaskStatus.done) = false := beq_eq_false_iff_ne.mpr hst
    simp only [isTaskOverdue, hbeq, hca, jsTruthy, Bool.false_or, Bool.false_eq_true,
      ite_false, hsplit, List.length_cons, List.length_nil, List.getD]
    simp only [show ((0 + 1 + 1 + 1 : Nat) == 3) = true from rfl, eq_self_iff_true,
      ite_true, List.get?_cons_zero, List.get?_cons_succ, Option.getD_some, hpy, hpm, hpd]
    rw [jsMakeDateDay_eq_daysFromCivil y m d hy hm1 hm2]
    simp [hlt]

/-- Concrete done task for the C5 witness. -/
def taskDoneEx : Task :=
  { id := "t3", title := "Gamma", description := "third", status := TaskStatus.done,
    priority := TaskPriority.medium, dueDate := "2020-01-01", assignee := user001,
    tags := [], createdAt := "c3", updatedAt := "u3" }

/-- Concrete host-date environment: today is 2025-10-11. -/
def dateEnvEx : DateEnv :=
  { todayDay := daysFromCivil 2025 10 11, parseDateFallbackDay := fun _ => none }

/-- Witness for C5: the done task (despite its past due date) is not
overdue, while the todo task due 2025-01-01 is overdue on 2025-10-11. -/
theorem isTaskOverdue_spec_witness :
    isTaskOverdue dateEnvEx taskDoneEx = false ∧ isTaskOverdue dateEnvEx taskT1 = true :=
  ⟨(isTaskOverdue_spec dateEnvEx taskDoneEx).1 rfl,
   (isTaskOverdue_spec dateEnvEx taskT1).2 (by decide) rfl "2025" "01" "01" 2025 1 1
     (by decide) (by decide) (by decide) (by decide) (by decide) (by decide) (by decide)
     (by decide) (by decide) (by decide)⟩

end TaskManager
